import Mathlib

/-!
Shallow embedding of the Diffie-Hellman constraint-propagation solver in
src/Desktop/DFHScriptAdapt.py (class DiffieHellmanSolver), together with
theorems about the propagation engine (infer_variables) and the
consistency checker (check_consistency).

The seven optional variables of the solver form a `VariableSet`.  Python
exceptions that escape the solver (the ValueError raised by three-argument
pow with a zero modulus) are modelled with `Except PyError`; the
ValueError raised by a failed discrete-log attempt is caught by the
solver, so it surfaces only as a `Diag` diagnostic, never as an error.
-/

/-- Uncaught Python exception of the solver: `pow(x, y, 0)` raises
ValueError, and no rule of `infer_variables` catches it. -/
inductive PyError where
  | powZeroModulus : PyError
  deriving DecidableEq

/-- Diagnostic printed when a discrete-log rule is abandoned, one
constructor per print site of `infer_variables` (in source order):
a from (A, g); b from (B, g); a from (s, B); b from (s, A). -/
inductive Diag where
  | aFromAg : Diag
  | bFromBg : Diag
  | aFromSB : Diag
  | bFromSA : Diag
  deriving DecidableEq

/-- Which cross-check of `check_consistency` failed. -/
inductive Via where
  | viaAPowB : Via
  | viaBPowA : Via
  deriving DecidableEq

/-- Warning printed by `check_consistency`: the recomputed shared secret
does not match the stored one, via the named derivation path. -/
inductive Violation where
  | sharedSecretMismatch : Via → Violation
  deriving DecidableEq

/-- The `self.variables` dictionary of `DiffieHellmanSolver`: the seven
keys p, g, a, b, A, B, s, each mapped to an optional non-negative
arbitrary-precision integer (`None` = unset). -/
structure VariableSet where
  p : Option Nat
  g : Option Nat
  a : Option Nat
  b : Option Nat
  A : Option Nat
  B : Option Nat
  s : Option Nat
  deriving DecidableEq

/-- Python's three-argument `pow(x, y, m)` on non-negative integers:
x ^ y mod m, raising ValueError when the modulus is zero. -/
def powMod (x y m : Nat) : Except PyError Nat :=
  if m = 0 then .error .powZeroModulus else .ok (x ^ y % m)

/-- Modelled from the spec: the discrete-logarithm primitive backing the
solver is `sympy.ntheory.residue_ntheory.discrete_log`, an external
library import and not part of this repository's source.  Per the spec it
finds the smallest non-negative exponent x with b ^ x ≡ t (mod n), or
fails (`none` stands for the ValueError the solver catches).  Searching
x < n is complete: the sequence b ^ x mod n takes each of its values at
some index below n, so every attainable target is found and the first
match is the smallest solution. -/
def discrete_log (n t b : Nat) : Option Nat :=
  (List.range n).find? fun x => b ^ x % n == t % n

/-- Rule 1 of `infer_variables`: A ← pow(g, a, p) when A is unset and
g, a, p are set. -/
def rule1 (st : VariableSet) (ch : Bool) (ds : List Diag) :
    Except PyError (VariableSet × Bool × List Diag) :=
  match st.A, st.g, st.a, st.p with
  | none, some gv, some av, some pv =>
      (powMod gv av pv).map fun r => ({ st with A := some r }, true, ds)
  | _, _, _, _ => .ok (st, ch, ds)

/-- Rule 2 of `infer_variables`: B ← pow(g, b, p) when B is unset and
g, b, p are set. -/
def rule2 (st : VariableSet) (ch : Bool) (ds : List Diag) :
    Except PyError (VariableSet × Bool × List Diag) :=
  match st.B, st.g, st.b, st.p with
  | none, some gv, some bv, some pv =>
      (powMod gv bv pv).map fun r => ({ st with B := some r }, true, ds)
  | _, _, _, _ => .ok (st, ch, ds)

/-- Rule 3 of `infer_variables`: s ← pow(A, b, p) when s is unset and
A, b, p are set. -/
def rule3 (st : VariableSet) (ch : Bool) (ds : List Diag) :
    Except PyError (VariableSet × Bool × List Diag) :=
  match st.s, st.A, st.b, st.p with
  | none, some Av, some bv, some pv =>
      (powMod Av bv pv).map fun r => ({ st with s := some r }, true, ds)
  | _, _, _, _ => .ok (st, ch, ds)

/-- Rule 4 of `infer_variables`: s ← pow(B, a, p) when s is unset and
B, a, p are set. -/
def rule4 (st : VariableSet) (ch : Bool) (ds : List Diag) :
    Except PyError (VariableSet × Bool × List Diag) :=
  match st.s, st.B, st.a, st.p with
  | none, some Bv, some av, some pv =>
      (powMod Bv av pv).map fun r => ({ st with s := some r }, true, ds)
  | _, _, _, _ => .ok (st, ch, ds)

/-- Rule 5 of `infer_variables`: a ← discrete_log(p, A, g) when a is
unset and A, g, p are set; a failed attempt prints a diagnostic and
leaves the changed flag alone. -/
def rule5 (st : VariableSet) (ch : Bool) (ds : List Diag) :
    Except PyError (VariableSet × Bool × List Diag) :=
  match st.a, st.A, st.g, st.p with
  | none, some Av, some gv, some pv =>
      match discrete_log pv Av gv with
      | some x => .ok ({ st with a := some x }, true, ds)
      | none => .ok (st, ch, ds ++ [Diag.aFromAg])
  | _, _, _, _ => .ok (st, ch, ds)

/-- Rule 6 of `infer_variables`: b ← discrete_log(p, B, g) when b is
unset and B, g, p are set. -/
def rule6 (st : VariableSet) (ch : Bool) (ds : List Diag) :
    Except PyError (VariableSet × Bool × List Diag) :=
  match st.b, st.B, st.g, st.p with
  | none, some Bv, some gv, some pv =>
      match discrete_log pv Bv gv with
      | some x => .ok ({ st with b := some x }, true, ds)
      | none => .ok (st, ch, ds ++ [Diag.bFromBg])
  | _, _, _, _ => .ok (st, ch, ds)

/-- Rule 7 of `infer_variables`: a ← discrete_log(p, s, B) when a is
unset and s, B, p are set. -/
def rule7 (st : VariableSet) (ch : Bool) (ds : List Diag) :
    Except PyError (VariableSet × Bool × List Diag) :=
  match st.a, st.s, st.B, st.p with
  | none, some sv, some Bv, some pv =>
      match discrete_log pv sv Bv with
      | some x => .ok ({ st with a := some x }, true, ds)
      | none => .ok (st, ch, ds ++ [Diag.aFromSB])
  | _, _, _, _ => .ok (st, ch, ds)

/-- Rule 8 of `infer_variables`: b ← discrete_log(p, s, A) when b is
unset and s, A, p are set. -/
def rule8 (st : VariableSet) (ch : Bool) (ds : List Diag) :
    Except PyError (VariableSet × Bool × List Diag) :=
  match st.b, st.s, st.A, st.p with
  | none, some sv, some Av, some pv =>
      match discrete_log pv sv Av with
      | some x => .ok ({ st with b := some x }, true, ds)
      | none => .ok (st, ch, ds ++ [Diag.bFromSA])
  | _, _, _, _ => .ok (st, ch, ds)

/-- One iteration of the while-loop body of `infer_variables`: the eight
rules in source order, starting from `changed = False`, each rule seeing
the updates of earlier rules in the same pass; an uncaught exception in
a pow rule aborts the pass. -/
def onePass (st : VariableSet) : Except PyError (VariableSet × Bool × List Diag) :=
  match rule1 st false [] with
  | .error e => .error e
  | .ok (st1, ch1, ds1) =>
    match rule2 st1 ch1 ds1 with
    | .error e => .error e
    | .ok (st2, ch2, ds2) =>
      match rule3 st2 ch2 ds2 with
      | .error e => .error e
      | .ok (st3, ch3, ds3) =>
        match rule4 st3 ch3 ds3 with
        | .error e => .error e
        | .ok (st4, ch4, ds4) =>
          match rule5 st4 ch4 ds4 with
          | .error e => .error e
          | .ok (st5, ch5, ds5) =>
            match rule6 st5 ch5 ds5 with
            | .error e => .error e
            | .ok (st6, ch6, ds6) =>
              match rule7 st6 ch6 ds6 with
              | .error e => .error e
              | .ok (st7, ch7, ds7) =>
                match rule8 st7 ch7 ds7 with
                | .error e => .error e
                | .ok (st8, ch8, ds8) => .ok (st8, ch8, ds8)

/-- One when the entry is unset, zero when set. -/
def cnt : Option Nat → Nat
  | none => 1
  | some _ => 0

/-- Number of unset entries of the mapping; every pass that reports a
change strictly decreases it, which bounds the loop of
`infer_variables`. -/
def unsetCount (st : VariableSet) : Nat :=
  cnt st.p + cnt st.g + cnt st.a + cnt st.b + cnt st.A + cnt st.B + cnt st.s

/-- The while-loop of `infer_variables`, run with explicit fuel: repeat
passes while the previous pass reported a change, accumulating the
diagnostics of every pass.  Fuel `unsetCount st + 1` (see
`infer_variables`) never runs out, because each continued pass strictly
decreases `unsetCount` (theorem `inferAux_fuel_irrelevant` makes the
fuel-independence precise). -/
def inferAux : Nat → VariableSet → List Diag → Except PyError (VariableSet × List Diag)
  | 0, st, ds => .ok (st, ds)
  | fuel + 1, st, ds =>
    match onePass st with
    | .error e => .error e
    | .ok (st1, true, ds1) => inferAux fuel st1 (ds ++ ds1)
    | .ok (st1, false, ds1) => .ok (st1, ds ++ ds1)

/-- `DiffieHellmanSolver.infer_variables`: apply passes of the eight
rules until a whole pass sets no value, returning the final mapping and
the abandonment diagnostics in print order, or the uncaught exception
that aborted the run. -/
def infer_variables (st : VariableSet) : Except PyError (VariableSet × List Diag) :=
  inferAux (unsetCount st + 1) st []

/-- First check of `check_consistency`: when A, b, p, s are all set,
recompute the shared secret via pow(A, b, p) and report a mismatch. -/
def checkAB (st : VariableSet) : Except PyError (List Violation) :=
  match st.A, st.b, st.p, st.s with
  | some Av, some bv, some pv, some sv =>
      (powMod Av bv pv).map fun c =>
        if c ≠ sv then [Violation.sharedSecretMismatch Via.viaAPowB] else []
  | _, _, _, _ => .ok []

/-- Second check of `check_consistency`: when B, a, p, s are all set,
recompute the shared secret via pow(B, a, p) and report a mismatch. -/
def checkBA (st : VariableSet) : Except PyError (List Violation) :=
  match st.B, st.a, st.p, st.s with
  | some Bv, some av, some pv, some sv =>
      (powMod Bv av pv).map fun c =>
        if c ≠ sv then [Violation.sharedSecretMismatch Via.viaBPowA] else []
  | _, _, _, _ => .ok []

/-- `DiffieHellmanSolver.check_consistency`: run both cross-checks and
return the warnings in print order.  The method only reads
`self.variables`; the returned mapping is the (unchanged) mapping the
method leaves behind. -/
def check_consistency (st : VariableSet) : Except PyError (VariableSet × List Violation) :=
  match checkAB st with
  | .error e => .error e
  | .ok v1 =>
    match checkBA st with
    | .error e => .error e
    | .ok v2 => .ok (st, v1 ++ v2)

/-- The mapping st2 keeps every set entry of st with the same value
(only unset-to-set transitions happened between them). -/
def Extends (st st2 : VariableSet) : Prop :=
  (∀ v, st.p = some v → st2.p = some v) ∧
  (∀ v, st.g = some v → st2.g = some v) ∧
  (∀ v, st.a = some v → st2.a = some v) ∧
  (∀ v, st.b = some v → st2.b = some v) ∧
  (∀ v, st.A = some v → st2.A = some v) ∧
  (∀ v, st.B = some v → st2.B = some v) ∧
  (∀ v, st.s = some v → st2.s = some v)

theorem extends_refl (st : VariableSet) : Extends st st :=
  ⟨fun _ h => h, fun _ h => h, fun _ h => h, fun _ h => h,
   fun _ h => h, fun _ h => h, fun _ h => h⟩

theorem extends_trans {st st2 st3 : VariableSet} (h1 : Extends st st2)
    (h2 : Extends st2 st3) : Extends st st3 :=
  ⟨fun v h => h2.1 v (h1.1 v h),
   fun v h => h2.2.1 v (h1.2.1 v h),
   fun v h => h2.2.2.1 v (h1.2.2.1 v h),
   fun v h => h2.2.2.2.1 v (h1.2.2.2.1 v h),
   fun v h => h2.2.2.2.2.1 v (h1.2.2.2.2.1 v h),
   fun v h => h2.2.2.2.2.2.1 v (h1.2.2.2.2.2.1 v h),
   fun v h => h2.2.2.2.2.2.2 v (h1.2.2.2.2.2.2 v h)⟩

/-- What a single rule application can do to the pair of mapping and
changed flag: leave both alone, or set one previously-unset variable and
raise the flag. -/
def Step (st : VariableSet) (ch : Bool) (st2 : VariableSet) (ch2 : Bool) : Prop :=
  (st2 = st ∧ ch2 = ch) ∨
  (unsetCount st2 < unsetCount st ∧ ch2 = true ∧ Extends st st2)

theorem step_trans {st ch st2 ch2 st3 ch3} (h1 : Step st ch st2 ch2)
    (h2 : Step st2 ch2 st3 ch3) : Step st ch st3 ch3 := by
  rcases h1 with ⟨e1, e2⟩ | ⟨l1, c1, x1⟩
  · subst e1; subst e2; exact h2
  · rcases h2 with ⟨e1, e2⟩ | ⟨l2, c2, x2⟩
    · subst e1; subst e2; exact Or.inr ⟨l1, c1, x1⟩
    · exact Or.inr ⟨Nat.lt_trans l2 l1, c2, extends_trans x1 x2⟩

theorem step_extends {st ch st2 ch2} (h : Step st ch st2 ch2) : Extends st st2 := by
  rcases h with ⟨e1, _⟩ | ⟨_, _, x⟩
  · subst e1; exact extends_refl _
  · exact x

theorem step_progress {st st2} (h : Step st false st2 true) :
    unsetCount st2 < unsetCount st := by
  rcases h with ⟨_, e2⟩ | ⟨l, _, _⟩
  · exact Bool.noConfusion e2
  · exact l

theorem step_nochange {st st2} (h : Step st false st2 false) : st2 = st := by
  rcases h with ⟨e1, _⟩ | ⟨_, c, _⟩
  · exact e1
  · exact Bool.noConfusion c

/-- Setting the unset a entry is a proper `Step`. -/
theorem step_set_a (st : VariableSet) (ch : Bool) (x : Nat) (h : st.a = none) :
    Step st ch { st with a := some x } true := by
  obtain ⟨P, G, a0, b0, A0, B0, S0⟩ := st
  subst h
  refine Or.inr ⟨?_, rfl, ?_⟩
  · simp [unsetCount, cnt]
  · simp [Extends]

/-- Setting the unset b entry is a proper `Step`. -/
theorem step_set_b (st : VariableSet) (ch : Bool) (x : Nat) (h : st.b = none) :
    Step st ch { st with b := some x } true := by
  obtain ⟨P, G, a0, b0, A0, B0, S0⟩ := st
  subst h
  refine Or.inr ⟨?_, rfl, ?_⟩
  · simp [unsetCount, cnt]
  · simp [Extends]

/-- Setting the unset A entry is a proper `Step`. -/
theorem step_set_A (st : VariableSet) (ch : Bool) (x : Nat) (h : st.A = none) :
    Step st ch { st with A := some x } true := by
  obtain ⟨P, G, a0, b0, A0, B0, S0⟩ := st
  subst h
  refine Or.inr ⟨?_, rfl, ?_⟩
  · simp [unsetCount, cnt]
  · simp [Extends]

/-- Setting the unset B entry is a proper `Step`. -/
theorem step_set_B (st : VariableSet) (ch : Bool) (x : Nat) (h : st.B = none) :
    Step st ch { st with B := some x } true := by
  obtain ⟨P, G, a0, b0, A0, B0, S0⟩ := st
  subst h
  refine Or.inr ⟨?_, rfl, ?_⟩
  · simp [unsetCount, cnt]
  · simp [Extends]

/-- Setting the unset s entry is a proper `Step`. -/
theorem step_set_s (st : VariableSet) (ch : Bool) (x : Nat) (h : st.s = none) :
    Step st ch { st with s := some x } true := by
  obtain ⟨P, G, a0, b0, A0, B0, S0⟩ := st
  subst h
  refine Or.inr ⟨?_, rfl, ?_⟩
  · simp [unsetCount, cnt]
  · simp [Extends]

/-- Rule 1 either leaves the pair unchanged or properly sets A. -/
theorem rule1_step (st : VariableSet) (ch : Bool) (ds : List Diag)
    (st2 : VariableSet) (ch2 : Bool) (ds2 : List Diag)
    (h : rule1 st ch ds = .ok (st2, ch2, ds2)) : Step st ch st2 ch2 := by
  obtain ⟨P, G, a0, b0, A0, B0, S0⟩ := st
  cases A0 <;> cases G <;> cases a0 <;> cases P <;>
    (simp only [rule1, Except.ok.injEq, Prod.mk.injEq] at h
     first
     | exact Or.inl ⟨h.1.symm, h.2.1.symm⟩
     | (rename_i gv av pv
        by_cases hpv : pv = 0
        · rw [powMod, if_pos hpv] at h
          exact Except.noConfusion h
        · rw [powMod, if_neg hpv] at h
          simp only [Except.map, Except.ok.injEq, Prod.mk.injEq] at h
          obtain ⟨h1, h2, h3⟩ := h
          subst h2
          rw [← h1]
          exact step_set_A ⟨some pv, some gv, some av, b0, none, B0, S0⟩ ch (gv ^ av % pv) rfl))

/-- Rule 2 either leaves the pair unchanged or properly sets B. -/
theorem rule2_step (st : VariableSet) (ch : Bool) (ds : List Diag)
    (st2 : VariableSet) (ch2 : Bool) (ds2 : List Diag)
    (h : rule2 st ch ds = .ok (st2, ch2, ds2)) : Step st ch st2 ch2 := by
  obtain ⟨P, G, a0, b0, A0, B0, S0⟩ := st
  cases B0 <;> cases G <;> cases b0 <;> cases P <;>
    (simp only [rule2, Except.ok.injEq, Prod.mk.injEq] at h
     first
     | exact Or.inl ⟨h.1.symm, h.2.1.symm⟩
     | (rename_i gv bv pv
        by_cases hpv : pv = 0
        · rw [powMod, if_pos hpv] at h
          exact Except.noConfusion h
        · rw [powMod, if_neg hpv] at h
          simp only [Except.map, Except.ok.injEq, Prod.mk.injEq] at h
          obtain ⟨h1, h2, h3⟩ := h
          subst h2
          rw [← h1]
          exact step_set_B ⟨some pv, some gv, a0, some bv, A0, none, S0⟩ ch (gv ^ bv % pv) rfl))

/-- Rule 3 either leaves the pair unchanged or properly sets s. -/
theorem rule3_step (st : VariableSet) (ch : Bool) (ds : List Diag)
    (st2 : VariableSet) (ch2 : Bool) (ds2 : List Diag)
    (h : rule3 st ch ds = .ok (st2, ch2, ds2)) : Step st ch st2 ch2 := by
  obtain ⟨P, G, a0, b0, A0, B0, S0⟩ := st
  cases S0 <;> cases A0 <;> cases b0 <;> cases P <;>
    (simp only [rule3, Except.ok.injEq, Prod.mk.injEq] at h
     first
     | exact Or.inl ⟨h.1.symm, h.2.1.symm⟩
     | (rename_i Av bv pv
        by_cases hpv : pv = 0
        · rw [powMod, if_pos hpv] at h
          exact Except.noConfusion h
        · rw [powMod, if_neg hpv] at h
          simp only [Except.map, Except.ok.injEq, Prod.mk.injEq] at h
          obtain ⟨h1, h2, h3⟩ := h
          subst h2
          rw [← h1]
          exact step_set_s ⟨some pv, G, a0, some bv, some Av, B0, none⟩ ch (Av ^ bv % pv) rfl))

/-- Rule 4 either leaves the pair unchanged or properly sets s. -/
theorem rule4_step (st : VariableSet) (ch : Bool) (ds : List Diag)
    (st2 : VariableSet) (ch2 : Bool) (ds2 : List Diag)
    (h : rule4 st ch ds = .ok (st2, ch2, ds2)) : Step st ch st2 ch2 := by
  obtain ⟨P, G, a0, b0, A0, B0, S0⟩ := st
  cases S0 <;> cases B0 <;> cases a0 <;> cases P <;>
    (simp only [rule4, Except.ok.injEq, Prod.mk.injEq] at h
     first
     | exact Or.inl ⟨h.1.symm, h.2.1.symm⟩
     | (rename_i Bv av pv
        by_cases hpv : pv = 0
        · rw [powMod, if_pos hpv] at h
          exact Except.noConfusion h
        · rw [powMod, if_neg hpv] at h
          simp only [Except.map, Except.ok.injEq, Prod.mk.injEq] at h
          obtain ⟨h1, h2, h3⟩ := h
          subst h2
          rw [← h1]
          exact step_set_s ⟨some pv, G, some av, b0, A0, some Bv, none⟩ ch (Bv ^ av % pv) rfl))

/-- Rule 5 either leaves the mapping unchanged (possibly appending a
diagnostic) or properly sets a. -/
theorem rule5_step (st : VariableSet) (ch : Bool) (ds : List Diag)
    (st2 : VariableSet) (ch2 : Bool) (ds2 : List Diag)
    (h : rule5 st ch ds = .ok (st2, ch2, ds2)) : Step st ch st2 ch2 := by
  obtain ⟨P, G, a0, b0, A0, B0, S0⟩ := st
  cases a0 <;> cases A0 <;> cases G <;> cases P <;>
    (simp only [rule5, Except.ok.injEq, Prod.mk.injEq] at h
     first
     | exact Or.inl ⟨h.1.symm, h.2.1.symm⟩
     | (rename_i Av gv pv
        cases hd : discrete_log pv Av gv with
        | none =>
          simp only [hd, Except.ok.injEq, Prod.mk.injEq] at h
          exact Or.inl ⟨h.1.symm, h.2.1.symm⟩
        | some x =>
          simp only [hd, Except.ok.injEq, Prod.mk.injEq] at h
          obtain ⟨h1, h2, h3⟩ := h
          subst h2
          rw [← h1]
          exact step_set_a ⟨some pv, some gv, none, b0, some Av, B0, S0⟩ ch x rfl))

/-- Rule 6 either leaves the mapping unchanged (possibly appending a
diagnostic) or properly sets b. -/
theorem rule6_step (st : VariableSet) (ch : Bool) (ds : List Diag)
    (st2 : VariableSet) (ch2 : Bool) (ds2 : List Diag)
    (h : rule6 st ch ds = .ok (st2, ch2, ds2)) : Step st ch st2 ch2 := by
  obtain ⟨P, G, a0, b0, A0, B0, S0⟩ := st
  cases b0 <;> cases B0 <;> cases G <;> cases P <;>
    (simp only [rule6, Except.ok.injEq, Prod.mk.injEq] at h
     first
     | exact Or.inl ⟨h.1.symm, h.2.1.symm⟩
     | (rename_i Bv gv pv
        cases hd : discrete_log pv Bv gv with
        | none =>
          simp only [hd, Except.ok.injEq, Prod.mk.injEq] at h
          exact Or.inl ⟨h.1.symm, h.2.1.symm⟩
        | some x =>
          simp only [hd, Except.ok.injEq, Prod.mk.injEq] at h
          obtain ⟨h1, h2, h3⟩ := h
          subst h2
          rw [← h1]
          exact step_set_b ⟨some pv, some gv, a0, none, A0, some Bv, S0⟩ ch x rfl))

/-- Rule 7 either leaves the mapping unchanged (possibly appending a
diagnostic) or properly sets a. -/
theorem rule7_step (st : VariableSet) (ch : Bool) (ds : List Diag)
    (st2 : VariableSet) (ch2 : Bool) (ds2 : List Diag)
    (h : rule7 st ch ds = .ok (st2, ch2, ds2)) : Step st ch st2 ch2 := by
  obtain ⟨P, G, a0, b0, A0, B0, S0⟩ := st
  cases a0 <;> cases S0 <;> cases B0 <;> cases P <;>
    (simp only [rule7, Except.ok.injEq, Prod.mk.injEq] at h
     first
     | exact Or.inl ⟨h.1.symm, h.2.1.symm⟩
     | (rename_i sv Bv pv
        cases hd : discrete_log pv sv Bv with
        | none =>
          simp only [hd, Except.ok.injEq, Prod.mk.injEq] at h
          exact Or.inl ⟨h.1.symm, h.2.1.symm⟩
        | some x =>
          simp only [hd, Except.ok.injEq, Prod.mk.injEq] at h
          obtain ⟨h1, h2, h3⟩ := h
          subst h2
          rw [← h1]
          exact step_set_a ⟨some pv, G, none, b0, A0, some Bv, some sv⟩ ch x rfl))

/-- Rule 8 either leaves the mapping unchanged (possibly appending a
diagnostic) or properly sets b. -/
theorem rule8_step (st : VariableSet) (ch : Bool) (ds : List Diag)
    (st2 : VariableSet) (ch2 : Bool) (ds2 : List Diag)
    (h : rule8 st ch ds = .ok (st2, ch2, ds2)) : Step st ch st2 ch2 := by
  obtain ⟨P, G, a0, b0, A0, B0, S0⟩ := st
  cases b0 <;> cases S0 <;> cases A0 <;> cases P <;>
    (simp only [rule8, Except.ok.injEq, Prod.mk.injEq] at h
     first
     | exact Or.inl ⟨h.1.symm, h.2.1.symm⟩
     | (rename_i sv Av pv
        cases hd : discrete_log pv sv Av with
        | none =>
          simp only [hd, Except.ok.injEq, Prod.mk.injEq] at h
          exact Or.inl ⟨h.1.symm, h.2.1.symm⟩
        | some x =>
          simp only [hd, Except.ok.injEq, Prod.mk.injEq] at h
          obtain ⟨h1, h2, h3⟩ := h
          subst h2
          rw [← h1]
          exact step_set_b ⟨some pv, G, a0, none, some Av, B0, some sv⟩ ch x rfl))

/-- A whole pass of the eight rules is a chain of `Step`s: it returns the
changed flag true exactly when it set at least one variable, and only ever
extends the mapping. -/
theorem onePass_step (st : VariableSet) (st2 : VariableSet) (ch2 : Bool)
    (ds2 : List Diag) (h : onePass st = .ok (st2, ch2, ds2)) :
    Step st false st2 ch2 := by
  unfold onePass at h
  cases e1 : rule1 st false [] with
  | error e => simp only [e1] at h; exact Except.noConfusion h
  | ok r1 =>
  obtain ⟨s1, c1, d1⟩ := r1
  simp only [e1] at h
  cases e2 : rule2 s1 c1 d1 with
  | error e => simp only [e2] at h; exact Except.noConfusion h
  | ok r2 =>
  obtain ⟨s2, c2, d2⟩ := r2
  simp only [e2] at h
  cases e3 : rule3 s2 c2 d2 with
  | error e => simp only [e3] at h; exact Except.noConfusion h
  | ok r3 =>
  obtain ⟨s3, c3, d3⟩ := r3
  simp only [e3] at h
  cases e4 : rule4 s3 c3 d3 with
  | error e => simp only [e4] at h; exact Except.noConfusion h
  | ok r4 =>
  obtain ⟨s4, c4, d4⟩ := r4
  simp only [e4] at h
  cases e5 : rule5 s4 c4 d4 with
  | error e => simp only [e5] at h; exact Except.noConfusion h
  | ok r5 =>
  obtain ⟨s5, c5, d5⟩ := r5
  simp only [e5] at h
  cases e6 : rule6 s5 c5 d5 with
  | error e => simp only [e6] at h; exact Except.noConfusion h
  | ok r6 =>
  obtain ⟨s6, c6, d6⟩ := r6
  simp only [e6] at h
  cases e7 : rule7 s6 c6 d6 with
  | error e => simp only [e7] at h; exact Except.noConfusion h
  | ok r7 =>
  obtain ⟨s7, c7, d7⟩ := r7
  simp only [e7] at h
  cases e8 : rule8 s7 c7 d7 with
  | error e => simp only [e8] at h; exact Except.noConfusion h
  | ok r8 =>
  obtain ⟨s8, c8, d8⟩ := r8
  simp only [e8, Except.ok.injEq, Prod.mk.injEq] at h
  obtain ⟨h1, h2, h3⟩ := h
  subst h1; subst h2
  exact step_trans (rule1_step _ _ _ _ _ _ e1)
    (step_trans (rule2_step _ _ _ _ _ _ e2)
      (step_trans (rule3_step _ _ _ _ _ _ e3)
        (step_trans (rule4_step _ _ _ _ _ _ e4)
          (step_trans (rule5_step _ _ _ _ _ _ e5)
            (step_trans (rule6_step _ _ _ _ _ _ e6)
              (step_trans (rule7_step _ _ _ _ _ _ e7)
                (rule8_step _ _ _ _ _ _ e8)))))))

/-- A pass reporting a change strictly decreased the number of unset
entries. -/
theorem onePass_progress {st st2 ds2} (h : onePass st = .ok (st2, true, ds2)) :
    unsetCount st2 < unsetCount st :=
  step_progress (onePass_step st st2 true ds2 h)

/-- A pass reporting no change left the mapping untouched. -/
theorem onePass_nochange {st st2 ds2} (h : onePass st = .ok (st2, false, ds2)) :
    st2 = st :=
  step_nochange (onePass_step st st2 false ds2 h)

/-- Every completed pass extends the mapping. -/
theorem onePass_extends {st st2 ch2 ds2} (h : onePass st = .ok (st2, ch2, ds2)) :
    Extends st st2 :=
  step_extends (onePass_step st st2 ch2 ds2 h)

/-- Monotonicity of the whole fuelled loop: a completed run only extends
the input mapping. -/
theorem inferAux_extends (fuel : Nat) (st : VariableSet) (ds : List Diag)
    (st2 : VariableSet) (ds2 : List Diag)
    (h : inferAux fuel st ds = .ok (st2, ds2)) : Extends st st2 := by
  induction fuel generalizing st ds st2 ds2 with
  | zero =>
    simp only [inferAux, Except.ok.injEq, Prod.mk.injEq] at h
    obtain ⟨h1, h2⟩ := h
    subst h1
    exact extends_refl _
  | succ n ih =>
    simp only [inferAux] at h
    cases e : onePass st with
    | error e0 => simp only [e] at h; exact Except.noConfusion h
    | ok r =>
      obtain ⟨st1, ch1, ds1⟩ := r
      cases ch1 with
      | true =>
        simp only [e] at h
        exact extends_trans (onePass_extends e) (ih _ _ _ _ h)
      | false =>
        simp only [e, Except.ok.injEq, Prod.mk.injEq] at h
        obtain ⟨h1, h2⟩ := h
        subst h1
        exact onePass_extends e

/-- With enough fuel, the state a completed run returns is a fixpoint:
one more pass reports no change (and returns the same mapping). -/
theorem inferAux_fixpoint (fuel : Nat) (st : VariableSet) (ds : List Diag)
    (st2 : VariableSet) (ds2 : List Diag) (hf : unsetCount st < fuel)
    (h : inferAux fuel st ds = .ok (st2, ds2)) :
    ∃ d, onePass st2 = .ok (st2, false, d) := by
  induction fuel generalizing st ds st2 ds2 with
  | zero => exact absurd hf (Nat.not_lt_zero _)
  | succ n ih =>
    simp only [inferAux] at h
    cases e : onePass st with
    | error e0 => simp only [e] at h; exact Except.noConfusion h
    | ok r =>
      obtain ⟨st1, ch1, ds1⟩ := r
      cases ch1 with
      | true =>
        simp only [e] at h
        exact ih _ _ _ _
          (Nat.lt_of_lt_of_le (onePass_progress e) (Nat.lt_succ_iff.mp hf)) h
      | false =>
        simp only [e, Except.ok.injEq, Prod.mk.injEq] at h
        obtain ⟨h1, h2⟩ := h
        subst h1
        have hn : st1 = st := onePass_nochange e
        subst hn
        exact ⟨ds1, e⟩

/-- The fuel of `infer_variables` is an artifact of the embedding: any
fuel exceeding the number of unset entries gives the same run, so the
source's unbounded while-loop is faithfully represented. -/
theorem inferAux_fuel_irrelevant (f1 f2 : Nat) (st : VariableSet) (ds : List Diag)
    (h1 : unsetCount st < f1) (h2 : unsetCount st < f2) :
    inferAux f1 st ds = inferAux f2 st ds := by
  induction f1 generalizing f2 st ds with
  | zero => exact absurd h1 (Nat.not_lt_zero _)
  | succ n ih =>
    cases f2 with
    | zero => exact absurd h2 (Nat.not_lt_zero _)
    | succ m =>
      simp only [inferAux]
      cases e : onePass st with
      | error e0 => simp only [e]
      | ok r =>
        obtain ⟨st1, ch1, ds1⟩ := r
        cases ch1 with
        | true =>
          simp only [e]
          exact ih m st1 (ds ++ ds1)
            (Nat.lt_of_lt_of_le (onePass_progress e) (Nat.lt_succ_iff.mp h1))
            (Nat.lt_of_lt_of_le (onePass_progress e) (Nat.lt_succ_iff.mp h2))
        | false => simp only [e]

theorem cnt_le_one (o : Option Nat) : cnt o ≤ 1 := by
  cases o <;> simp [cnt]

/-- There are only seven variables, so at most seven can ever be unset. -/
theorem unsetCount_le_seven (st : VariableSet) : unsetCount st ≤ 7 := by
  have h1 := cnt_le_one st.p
  have h2 := cnt_le_one st.g
  have h3 := cnt_le_one st.a
  have h4 := cnt_le_one st.b
  have h5 := cnt_le_one st.A
  have h6 := cnt_le_one st.B
  have h7 := cnt_le_one st.s
  unfold unsetCount
  omega

/-- A run that fires in its first pass and reaches the fixpoint in its
second needs exactly those two passes, for any sufficient fuel. -/
theorem inferAux_two_pass (k : Nat) (st st1 : VariableSet)
    (ds ds1 d2 : List Diag) (h1 : onePass st = .ok (st1, true, ds1))
    (h2 : onePass st1 = .ok (st1, false, d2)) :
    inferAux (k + 1 + 1) st ds = .ok (st1, ds ++ ds1 ++ d2) := by
  simp only [inferAux, h1, h2, List.append_assoc]

/-- Initial mapping of the round-trip test: p=23, g=5, a=6, b=15. -/
def exC1 : VariableSet := ⟨some 23, some 5, some 6, some 15, none, none, none⟩

/-- Fully solved mapping for p=23, g=5: a=6, b=15, A=8, B=19, s=2. -/
def exC1out : VariableSet := ⟨some 23, some 5, some 6, some 15, some 8, some 19, some 2⟩

/-- Initial mapping of the inverse test: p=23, g=5, A=8, B=19. -/
def exC2 : VariableSet := ⟨some 23, some 5, none, none, some 8, some 19, none⟩

/-- Unsolvable discrete-log instance: p=7, g=2, A=5 (2 ^ x mod 7 cycles
through 1, 2, 4 and never reaches 5). -/
def exC3 : VariableSet := ⟨some 7, some 2, none, none, some 5, none, none⟩

/-- The unsolvable instance with B=2 also set, so that other rules keep
firing after the a-rule has failed. -/
def exC3b : VariableSet := ⟨some 7, some 2, none, none, some 5, some 2, none⟩

/-- What `infer_variables` makes of `exC3b`: b=1 and s=5 get derived,
a stays unset. -/
def exC3bOut : VariableSet := ⟨some 7, some 2, none, some 1, some 5, some 2, some 5⟩

/-- Deliberately inconsistent mapping: p=23, A=8, b=15, s=999. -/
def exC6 : VariableSet := ⟨some 23, none, none, some 15, some 8, none, some 999⟩

/-- The all-unset mapping. -/
def emptyVS : VariableSet := ⟨none, none, none, none, none, none, none⟩

/-- s unset while both s-rules' inputs are set, but with p = 0. -/
def exC9 : VariableSet := ⟨some 0, none, some 6, some 15, some 8, some 19, none⟩

/-- p=0 with g and a set and A unset: the first pow rule fires and
raises. -/
def exC10 : VariableSet := ⟨some 0, some 5, some 6, none, none, none, none⟩

/-- C1: on the initial mapping with exactly p=23, g=5, a=6, b=15 set,
`infer_variables` terminates with A=8, B=19 and s=2 set and p, g, a, b
unchanged; moreover the very first pass already derives all three values
(the s-rule sees the A value set earlier in the same pass), confirming
intra-pass visibility. -/
theorem c1_round_trip :
    onePass exC1 = .ok (exC1out, true, []) ∧
    infer_variables exC1 = .ok (exC1out, []) :=
  ⟨rfl, rfl⟩

/-- C2: on the initial mapping with exactly p=23, g=5, A=8, B=19 set,
`infer_variables` recovers a=6 and b=15 through the discrete-log rules
and then derives s=2; 6 and 15 are the first (hence smallest)
non-negative exponents the search finds with 5 ^ x ≡ 8 resp. 19
(mod 23). -/
theorem c2_inverse_consistency :
    infer_variables exC2 = .ok (exC1out, []) ∧
    discrete_log 23 8 5 = some 6 ∧ discrete_log 23 19 5 = some 15 :=
  ⟨rfl, rfl, rfl⟩

/-- C3 counterexample: with p=7, g=2, A=5 and additionally B=2 set, the
rule a ← discrete_log(p, A, g) fails in pass one, yet is attempted again
in passes two and three (rules b ← discrete_log(p, B, g) and
s ← pow(A, b, p) kept the loop going), so its abandonment diagnostic is
emitted three times within one `infer_variables` call — refuting the
claim that a failed discrete-log rule is not re-attempted within the same
call and diagnoses at most once per rule per call. -/
theorem c3_counterexample :
    infer_variables exC3b = .ok (exC3bOut,
      [Diag.aFromAg, Diag.aFromAg, Diag.aFromSB, Diag.aFromAg, Diag.aFromSB]) ∧
    List.count Diag.aFromAg
      [Diag.aFromAg, Diag.aFromAg, Diag.aFromSB, Diag.aFromAg, Diag.aFromSB] = 3 :=
  ⟨rfl, rfl⟩

/-- C3 amended: a failed discrete-log rule may be re-attempted (and
re-diagnosed) on every later pass of the same call; on the particular
input with exactly p=7, g=2, A=5 set there is only one pass, so
`infer_variables` leaves a unset, emits exactly one abandonment
diagnostic, and raises no fatal error. -/
theorem c3_amended_bounded_failure :
    infer_variables exC3 = .ok (exC3, [Diag.aFromAg]) := rfl

/-- C4: `infer_variables` is monotonic: on any completed run, every key
set in the input is set to the same value in the output, so no key ever
transitions from set to unset and only unset entries can become set. -/
theorem c4_monotonic (st st2 : VariableSet) (ds : List Diag)
    (h : infer_variables st = .ok (st2, ds)) : Extends st st2 :=
  inferAux_extends (unsetCount st + 1) st [] st2 ds h

theorem c4_monotonic_witness : Extends exC1 exC1out :=
  c4_monotonic exC1 exC1out [] rfl

/-- C5: `infer_variables` is idempotent on the mapping: a second call on
the mapping a completed call returned yields that same mapping (the
first call reached a fixpoint, so the second sets no new values). -/
theorem c5_idempotent (st st2 : VariableSet) (ds : List Diag)
    (h : infer_variables st = .ok (st2, ds)) :
    Except.map Prod.fst (infer_variables st2) = .ok st2 := by
  obtain ⟨d, hfix⟩ :=
    inferAux_fixpoint (unsetCount st + 1) st [] st2 ds (Nat.lt_succ_self _) h
  have h2 : infer_variables st2 = .ok (st2, [] ++ d) := by
    unfold infer_variables
    simp only [inferAux, hfix]
  rw [h2]
  rfl

theorem c5_idempotent_witness :
    Except.map Prod.fst (infer_variables exC1out) = .ok exC1out :=
  c5_idempotent exC1 exC1out [] rfl

/-- C6: on the mapping p=23, A=8, b=15, s=999, `check_consistency`
reports exactly one shared-secret mismatch, via the A^b path (the B^a
check cannot run, B and a being unset); and on every input the checker
returns the mapping unchanged — it never mutates. -/
theorem c6_consistency_detection :
    check_consistency exC6 =
      .ok (exC6, [Violation.sharedSecretMismatch Via.viaAPowB]) ∧
    ∀ st st2 vs, check_consistency st = .ok (st2, vs) → st2 = st := by
  refine ⟨rfl, ?_⟩
  intro st st2 vs h
  unfold check_consistency at h
  cases e1 : checkAB st with
  | error e => simp only [e1] at h; exact Except.noConfusion h
  | ok v1 =>
    simp only [e1] at h
    cases e2 : checkBA st with
    | error e => simp only [e2] at h; exact Except.noConfusion h
    | ok v2 =>
      simp only [e2, Except.ok.injEq, Prod.mk.injEq] at h
      exact h.1.symm

theorem c6_consistency_witness : exC6 = exC6 :=
  c6_consistency_detection.2 exC6 exC6
    [Violation.sharedSecretMismatch Via.viaAPowB] rfl

/-- C7: `infer_variables` always terminates: the fuel of the embedding is
irrelevant (any amount beyond the bound gives the identical run, so the
source's while-loop exits on its own), and a completed run performs at
most 8 firings in total — each firing permanently sets one unset entry,
of which there are at most 7 — ending in a state on which a whole
further pass reports no change. -/
theorem c7_terminates (st : VariableSet) :
    (∀ n, inferAux (unsetCount st + 1 + n) st [] = infer_variables st) ∧
    ∀ st2 ds, infer_variables st = .ok (st2, ds) →
      unsetCount st - unsetCount st2 ≤ 8 ∧
      Except.map (fun r => (r.1, r.2.1)) (onePass st2) = .ok (st2, false) := by
  constructor
  · intro n
    exact inferAux_fuel_irrelevant (unsetCount st + 1 + n) (unsetCount st + 1)
      st [] (by omega) (by omega)
  · intro st2 ds h
    obtain ⟨d, hfix⟩ :=
      inferAux_fixpoint (unsetCount st + 1) st [] st2 ds (Nat.lt_succ_self _) h
    constructor
    · have := unsetCount_le_seven st
      omega
    · rw [hfix]
      rfl

theorem c7_terminates_witness :
    inferAux (unsetCount exC1 + 1 + 5) exC1 [] = infer_variables exC1 ∧
    (unsetCount exC1 - unsetCount exC1out ≤ 8 ∧
      Except.map (fun r => (r.1, r.2.1)) (onePass exC1out) = .ok (exC1out, false)) :=
  ⟨(c7_terminates exC1).1 5, (c7_terminates exC1).2 exC1out [] rfl⟩

/-- C8: `infer_variables` is deterministic — equal inputs give equal
outputs — and on the all-unset mapping it is a no-op while
`check_consistency` reports no violations. -/
theorem c8_deterministic :
    (∀ st1 st2 : VariableSet, st1 = st2 →
      infer_variables st1 = infer_variables st2) ∧
    infer_variables emptyVS = .ok (emptyVS, []) ∧
    check_consistency emptyVS = .ok (emptyVS, []) :=
  ⟨fun _ _ h => h ▸ rfl, rfl, rfl⟩

theorem c8_deterministic_witness :
    infer_variables exC1 = infer_variables exC1 ∧
    infer_variables emptyVS = .ok (emptyVS, []) :=
  ⟨c8_deterministic.1 exC1 exC1 rfl, c8_deterministic.2.1⟩

/-- C9 counterexample: a mapping satisfying the claim's preconditions —
s unset and both rule input sets A, b, p and B, a, p fully set — on
which `infer_variables` assigns nothing at all: with p = 0 the first
s-rule's pow raises, the exception propagates, and the call aborts, so
the claim quantified over every such VariableSet is false. -/
theorem c9_counterexample :
    infer_variables exC9 = .error PyError.powZeroModulus := rfl

/-- C9 amended: for every VariableSet in which s is unset, the inputs of
both s-rules are all set, and p is non-zero (with p = 0 the call aborts
instead), `infer_variables` assigns s the value A ^ b mod p computed by
the first s-rule in source order — never B ^ a mod p, even when the two
derivations disagree. -/
theorem c9_first_s_rule_wins (G : Option Nat) (pv av bv Av Bv : Nat)
    (hpv : pv ≠ 0) :
    infer_variables ⟨some pv, G, some av, some bv, some Av, some Bv, none⟩ =
      .ok (⟨some pv, G, some av, some bv, some Av, some Bv,
        some (Av ^ bv % pv)⟩, []) := by
  have h1 : onePass ⟨some pv, G, some av, some bv, some Av, some Bv, none⟩ =
      .ok (⟨some pv, G, some av, some bv, some Av, some Bv,
        some (Av ^ bv % pv)⟩, true, []) := by
    simp [onePass, rule1, rule2, rule3, rule4, rule5, rule6, rule7, rule8,
      powMod, Except.map, hpv]
  have h2 : onePass ⟨some pv, G, some av, some bv, some Av, some Bv,
      some (Av ^ bv % pv)⟩ =
      .ok (⟨some pv, G, some av, some bv, some Av, some Bv,
        some (Av ^ bv % pv)⟩, false, []) := by
    simp [onePass, rule1, rule2, rule3, rule4, rule5, rule6, rule7, rule8]
  have hc : unsetCount ⟨some pv, G, some av, some bv, some Av, some Bv, none⟩ =
      cnt G + 1 := by
    simp [unsetCount, cnt]
  unfold infer_variables
  rw [hc]
  simpa using inferAux_two_pass (cnt G) _ _ [] [] [] h1 h2

theorem c9_first_s_rule_wins_witness :
    infer_variables ⟨some 23, none, some 6, some 15, some 8, some 19, none⟩ =
      .ok (⟨some 23, none, some 6, some 15, some 8, some 19, some 2⟩, []) :=
  c9_first_s_rule_wins none 23 6 15 8 19 (by decide)

/-- C10: `infer_variables` is not total over mappings of non-negative
integers: with p=0, g=5, a=6 set and A unset, the forward rule
A ← pow(g, a, p) raises the zero-modulus ValueError, which no handler
catches, aborting the whole call; by contrast a failing discrete-log
rule (the exC3 instance) is caught and its call still completes. -/
theorem c10_zero_modulus_aborts :
    infer_variables exC10 = .error PyError.powZeroModulus ∧
    infer_variables exC3 = .ok (exC3, [Diag.aFromAg]) :=
  ⟨rfl, rfl⟩
